import Mathlib

set_option linter.unusedVariables false

/-!
Verification development for the BiometryServer repository (an MLLP/HL7
listener for a Swelab Alfa hematology analyzer).  The definitions below are
shallow embeddings of the Python source:

* the per-connection framing loop of `HL7Server.handle_client`
  (src/test2.py lines 298-351, src/python-hl7main.py lines 50-81):
  a byte buffer accumulates `recv` chunks and is repeatedly split at the
  first `0x1C 0x0D` terminator, stripping one optional leading `0x0B`;
* the segment processor `HL7Server.process_complete_hl7_message`
  (src/test2.py lines 135-208);
* the ACK builder `HL7Server.create_ack_response`
  (src/test2.py lines 287-296).

Bytes are modelled as `Nat` (0x0B = 11, 0x1C = 28, 0x0D = 13); Python byte
strings become `List Nat` and Python text strings become `String`.
-/

/-- `containsTerm buf` is `true` iff the two-byte MLLP terminator
`0x1C 0x0D` occurs (as two consecutive bytes) somewhere in `buf`.
This is Python's `b'\x1c\x0d' in buffer` test (src/test2.py line 312). -/
def containsTerm : List Nat → Bool
  | a :: b :: rest => if a = 28 ∧ b = 13 then true else containsTerm (b :: rest)
  | _ => false

/-- `splitTerm buf` is Python's `buffer.split(b'\x1c\x0d', 1)`
(src/test2.py line 313) restricted to the case where the separator occurs:
it returns the bytes before the first occurrence of `0x1C 0x0D` and the
bytes after it, or `none` when no occurrence exists. -/
def splitTerm : List Nat → Option (List Nat × List Nat)
  | [] => none
  | [_] => none
  | a :: b :: rest =>
    if a = 28 ∧ b = 13 then some ([], rest)
    else
      match splitTerm (b :: rest) with
      | none => none
      | some (pre, post) => some (a :: pre, post)

/-- Python's removal of the optional MLLP start byte:
`if message.startswith(b'\x0b'): message = message[1:]`
(src/test2.py lines 316-317). -/
def strip0b : List Nat → List Nat
  | 11 :: rest => rest
  | l => l

/-- Fuel-indexed worker for the `while b'\x1c\x0d' in buffer:` loop of
`handle_client` (src/test2.py lines 312-317): repeatedly split the buffer
at the first terminator and strip one optional leading `0x0B` from each
extracted message.  `fuel` bounds the number of loop iterations; since
every iteration removes at least the two terminator bytes from the buffer,
`buf.length` iterations always suffice (see `extractFramesGo_congr`). -/
def extractFramesGo : Nat → List Nat → List (List Nat) × List Nat
  | 0, buf => ([], buf)
  | fuel + 1, buf =>
    match splitTerm buf with
    | none => ([], buf)
    | some (message, rest) =>
      (strip0b message :: (extractFramesGo fuel rest).1, (extractFramesGo fuel rest).2)

/-- One drain pass of the framing loop: the list of complete frame
payloads extracted left-to-right from `buf`, together with the bytes
remaining in the buffer afterwards. -/
def extractFrames (buf : List Nat) : List (List Nat) × List Nat :=
  extractFramesGo buf.length buf

/-- The outer read loop of `handle_client` (src/test2.py lines 303-320):
starting from buffer `buf`, feed each received chunk in order, appending it
to the buffer and draining every complete frame before the next read.
Returns the frames processed (each one is passed to
`process_complete_hl7_message` and answered with `create_ack_response`),
in order, and the buffer contents left at connection close.  The code's
close path (`if not data: break`, then `finally: client_socket.close()`,
src/test2.py lines 305-306 and 346-351) produces no output and records no
fault, so the model has no error component. -/
def runFramer (buf : List Nat) : List (List Nat) → List (List Nat) × List Nat
  | [] => ([], buf)
  | c :: cs =>
    ((extractFrames (buf ++ c)).1 ++ (runFramer (extractFrames (buf ++ c)).2 cs).1,
     (runFramer (extractFrames (buf ++ c)).2 cs).2)

/-- An MLLP frame as specified in spec §6: start byte `0x0B`, payload,
terminator `0x1C 0x0D`. -/
def mllpFrame (M : List Nat) : List Nat := 11 :: (M ++ [28, 13])

/-- Python's `str.strip()` whitespace test, for the ASCII whitespace
characters (space, tab, newline, carriage return, vertical tab, form
feed). -/
def isPyWhitespace (c : Char) : Bool :=
  c = ' ' || c = '\t' || c = '\n' || c = '\r' || c = '\x0b' || c = '\x0c'

/-- Python's `seg.strip()` (src/test2.py line 143): remove leading and
trailing whitespace. -/
def pyStrip (s : String) : String :=
  ⟨((s.data.dropWhile isPyWhitespace).reverse.dropWhile isPyWhitespace).reverse⟩

/-- Worker for `pySplit`: `acc` holds the current piece, reversed. -/
def pySplitAux (sep : Char) : List Char → List Char → List String
  | [], acc => [⟨acc.reverse⟩]
  | c :: rest, acc =>
    if c = sep then ⟨acc.reverse⟩ :: pySplitAux sep rest []
    else pySplitAux sep rest (c :: acc)

/-- Python's `s.split(sep)` for a one-character separator, as used for the
segment delimiter `'\r'` (src/test2.py line 142) and the field delimiter
`'|'` (src/test2.py lines 161, 168, 175).  Empty pieces are kept and
`"".split(sep) = [""]`, as in Python. -/
def pySplit (s : String) (sep : Char) : List String := pySplitAux sep s.data []

/-- Python's slice `s[:n]`, as in `segment_type = segment[:3]`
(src/test2.py line 156). -/
def strTake (s : String) (n : Nat) : String := ⟨s.data.take n⟩

/-- The `patient_data` dictionary filled by `process_complete_hl7_message`
(src/test2.py lines 149, 159-171).  A key that was never assigned is
`none`. -/
structure PatientData where
  message_control_id : Option String
  timestamp : Option String
  patient_info : Option String
  specimen_id : Option String
deriving DecidableEq

/-- The dictionary appended to `lab_results` for each OBX segment
(src/test2.py lines 177-184). -/
structure TestResult where
  test_code : String
  test_value : String
  units : String
  reference_range : String
  status : String
deriving DecidableEq

/-- The empty `patient_data` dictionary (src/test2.py line 149). -/
def initPatientData : PatientData := ⟨none, none, none, none⟩

/-- The body of the `for i, segment in enumerate(segments):` loop of
`process_complete_hl7_message` (src/test2.py lines 152-184): dispatch on
the first three characters of the segment and update `patient_data` /
`lab_results`. -/
def processSegment (acc : PatientData × List TestResult) (segment : String) :
    PatientData × List TestResult :=
  let segment_type := strTake segment 3
  if segment_type = "MSH" then
    let fields := pySplit segment '|'
    if fields.length > 10 then
      ({ acc.1 with
          message_control_id := some (fields.getD 10 "")
          timestamp := some (if fields.length > 7 then fields.getD 7 "" else "") },
        acc.2)
    else acc
  else if segment_type = "OBR" then
    let fields := pySplit segment '|'
    if fields.length > 4 then
      ({ acc.1 with
          patient_info := some (fields.getD 4 "")
          specimen_id := some (if fields.length > 3 then fields.getD 3 "" else "") },
        acc.2)
    else acc
  else if segment_type = "OBX" then
    let fields := pySplit segment '|'
    if fields.length > 5 then
      (acc.1,
        acc.2 ++ [{ test_code := if fields.length > 3 then fields.getD 3 "" else ""
                    test_value := if fields.length > 5 then fields.getD 5 "" else ""
                    units := if fields.length > 6 then fields.getD 6 "" else ""
                    reference_range := if fields.length > 7 then fields.getD 7 "" else ""
                    status := if fields.length > 11 then fields.getD 11 "" else "" }])
    else acc
  else acc

/-- The segment cleanup of `process_complete_hl7_message`
(src/test2.py lines 142-143): split on `'\r'`, strip each piece, drop the
empty ones. -/
def cleanSegments (complete_message : String) : List String :=
  ((pySplit complete_message '\r').map pyStrip).filter (fun s => s ≠ "")

/-- The segment loop of `process_complete_hl7_message` over an already
cleaned segment list (src/test2.py lines 148-184). -/
def processSegments (segments : List String) : PatientData × List TestResult :=
  segments.foldl processSegment (initPatientData, [])

/-- `HL7Server.process_complete_hl7_message` (src/test2.py lines 135-208)
as a function of the decoded message text: split into segments, strip and
drop empties, then fold the segment dispatch.  The function is total: the
Python body wraps everything in `try/except` and contains no `raise`, and
every field access is guarded by a length check, so no exception escapes
and no input is rejected. -/
def process_complete_hl7_message (complete_message : String) :
    PatientData × List TestResult :=
  processSegments (cleanSegments complete_message)

/-- `HL7Server.create_ack_response` of src/test2.py (lines 287-296).  The
body ignores `original_message` entirely: the control ID and the timestamp
are string literals. -/
def create_ack_response (original_message : Option String) : String :=
  let control_id := "BM_3"
  let timestamp := "20250906121328"
  let ack := "MSH|^~\\&|103868||BM850HL7MW||" ++ timestamp ++ "||ACK|" ++ control_id ++
    "|P|2.7\r" ++ ("MSA|AA|" ++ control_id ++ "\r")
  "\x0b" ++ ack ++ "\x1c\x0d"

/-- `HL7Server.create_ack_response` of src/python-hl7main.py
(lines 174-181), as a function of the `datetime.now().strftime` result it
interpolates: both the outgoing control ID (MSH) and the `MSA` second
field are that timestamp string, with one-second resolution. -/
def create_ack_response_main (timestamp : String) : String :=
  let ack := "MSH|^~\\&|RECEIVER|HOSPITAL|SWELAB|LAB|" ++ timestamp ++ "||ACK|" ++
    timestamp ++ "|P|2.4\r" ++ ("MSA|AA|" ++ timestamp ++ "|Message accepted\r")
  "\x0b" ++ ack ++ "\x1c\x0d"

/-- Accessor on serialized HL7 text: the second field of the first `MSA`
segment (fields split on `'|'`; index 0 is the segment type, index 1 the
acknowledgment code, index 2 the acknowledged control ID, per spec §6's
`MSA|<code>|<originalControlId>|<optional text>`).  Segments are cleaned
the same way the server cleans inbound text, so a leading `0x0B` start
byte (stripped by `pyStrip`, which treats it as whitespace exactly like
Python) and the frame trailer do not disturb the segment scan. -/
def msaSecondField (text : String) : Option String :=
  match (cleanSegments text).filter (fun s => strTake s 3 = "MSA") with
  | [] => none
  | s :: _ => (pySplit s '|').get? 2

/-- Accessor on serialized HL7 text: the acknowledgment code, i.e. the
first field after the type of the first `MSA` segment (spec §6). -/
def msaAckCode (text : String) : Option String :=
  match (cleanSegments text).filter (fun s => strTake s 3 = "MSA") with
  | [] => none
  | s :: _ => (pySplit s '|').get? 1

/-- Accessor following the spec's words (§3, §6): the control ID of an HL7
message is `MSH` field 10.  In a `'|'`-split of the MSH line the field
separator itself is MSH-1, so MSH-10 is at split index 9 — as in the
spec §8 scenario, where `MSH|^~\&|A|B|C|D|20240101000000||ORU^R01|CTRL1|P|2.4`
has control ID `CTRL1` (index 9) and message type `ORU^R01` (index 8).
The server's own outgoing ACK (src/test2.py line 293) also places its
control ID at split index 9. -/
def controlIdHL7 (text : String) : Option String :=
  match cleanSegments text with
  | [] => none
  | s :: _ => if strTake s 3 = "MSH" then (pySplit s '|').get? 9 else none

/-- Parser contract following the spec's words (§4.2): split the text on
the segment delimiter, discard empty segments, and fail — `none` stands
for the `MalformedMessage` condition — when the segment sequence is empty
or the first segment's type (its first three characters) is not `MSH`. -/
def hl7ParseSpec (text : String) : Option (List String) :=
  match (pySplit text '\r').filter (fun s => s ≠ "") with
  | [] => none
  | s :: rest => if strTake s 3 = "MSH" then some (s :: rest) else none

example : extractFrames [11, 65, 66, 28, 13] = ([[65, 66]], []) := by decide
example : extractFrames [11, 65] = ([], [11, 65]) := by decide
example : runFramer [] [[11, 65], [66, 28], [13]] = ([[65, 66]], []) := by decide
example : runFramer [] [mllpFrame [65] ++ mllpFrame [66]] = ([[65], [66]], []) := by decide
example : msaSecondField (create_ack_response none) = some "BM_3" := by decide
example : msaAckCode (create_ack_response none) = some "AA" := by decide
example : controlIdHL7 (create_ack_response none) = some "BM_3" := by decide
example :
    (process_complete_hl7_message
      "MSH|^~\\&|A|B|C|D|20240101000000||ORU^R01|CTRL1|P|2.4").1.message_control_id =
    some "P" := by decide
example : controlIdHL7 "MSH|^~\\&|A|B|C|D|20240101000000||ORU^R01|CTRL1|P|2.4" =
    some "CTRL1" := by decide
example : hl7ParseSpec "OBR|1|SP1|SPEC1|PATIENT1" = none := by decide
example : (process_complete_hl7_message "OBR|1|SP1|SPEC1|PATIENT1").1.patient_info =
    some "PATIENT1" := by decide


/-- Soundness of `splitTerm`: a successful split decomposes the buffer as
the prefix, the terminator bytes, and the remainder. -/
theorem splitTerm_eq_append : ∀ (l pre post : List Nat),
    splitTerm l = some (pre, post) → l = pre ++ 28 :: 13 :: post := by
  intro l
  induction l with
  | nil => intro pre post h; simp [splitTerm] at h
  | cons a t ih =>
    cases t with
    | nil => intro pre post h; simp [splitTerm] at h
    | cons b r =>
      intro pre post h
      simp only [splitTerm] at h
      split at h
      · rename_i hpair
        simp only [Option.some.injEq, Prod.mk.injEq] at h
        obtain ⟨h1, h2⟩ := h
        subst h1; subst h2
        simp [hpair.1, hpair.2]
      · rename_i hpair
        cases hsp : splitTerm (b :: r) with
        | none => rw [hsp] at h; cases h
        | some pr =>
          obtain ⟨pre1, post1⟩ := pr
          rw [hsp] at h
          simp only [Option.some.injEq, Prod.mk.injEq] at h
          obtain ⟨h1, h2⟩ := h
          subst h1; subst h2
          have hbr := ih pre1 post1 hsp
          rw [List.cons_append, ← hbr]

/-- The worker's result does not depend on the fuel, as long as the fuel is
at least the buffer length. -/
theorem extractFramesGo_congr : ∀ (f1 : Nat) (buf : List Nat) (f2 : Nat),
    buf.length ≤ f1 → buf.length ≤ f2 →
    extractFramesGo f1 buf = extractFramesGo f2 buf := by
  intro f1
  induction f1 with
  | zero =>
    intro buf f2 h1 h2
    have hb : buf = [] := List.eq_nil_of_length_eq_zero (Nat.le_zero.mp h1)
    subst hb
    cases f2 with
    | zero => rfl
    | succ j => simp [extractFramesGo, splitTerm]
  | succ k ih =>
    intro buf f2 h1 h2
    cases f2 with
    | zero =>
      have hb : buf = [] := List.eq_nil_of_length_eq_zero (Nat.le_zero.mp h2)
      subst hb
      simp [extractFramesGo, splitTerm]
    | succ j =>
      cases hsp : splitTerm buf with
      | none => simp [extractFramesGo, hsp]
      | some pr =>
        obtain ⟨m, rest⟩ := pr
        have hb := splitTerm_eq_append buf m rest hsp
        have hlen : rest.length + 2 ≤ buf.length := by
          rw [hb]; simp only [List.length_append, List.length_cons]; omega
        have hk : rest.length ≤ k := by omega
        have hj : rest.length ≤ j := by omega
        simp only [extractFramesGo, hsp]
        rw [ih rest j hk hj]

/-- Unfolding `extractFrames` when the buffer holds no terminator:
the loop body does not run and the buffer is left unchanged. -/
theorem extractFrames_of_none (buf : List Nat) (h : splitTerm buf = none) :
    extractFrames buf = ([], buf) := by
  show extractFramesGo buf.length buf = ([], buf)
  cases hn : buf.length with
  | zero => simp [extractFramesGo]
  | succ k => simp [extractFramesGo, h]

/-- Unfolding `extractFrames` when the buffer contains a terminator:
one frame is extracted and the loop continues on the remainder. -/
theorem extractFrames_of_some (buf m rest : List Nat)
    (h : splitTerm buf = some (m, rest)) :
    extractFrames buf = (strip0b m :: (extractFrames rest).1, (extractFrames rest).2) := by
  have hb := splitTerm_eq_append buf m rest h
  have hlen : buf.length = m.length + 2 + rest.length := by
    rw [hb]; simp only [List.length_append, List.length_cons]; omega
  show extractFramesGo buf.length buf = _
  rw [hlen]
  have h2 : m.length + 2 + rest.length = (m.length + 1 + rest.length) + 1 := by omega
  rw [h2]
  simp only [extractFramesGo, h]
  rw [extractFramesGo_congr (m.length + 1 + rest.length) rest rest.length (by omega) (by omega)]
  rfl

/-- `splitTerm` fails on terminator-free buffers. -/
theorem splitTerm_none_of_noTerm : ∀ l : List Nat,
    containsTerm l = false → splitTerm l = none := by
  intro l
  induction l with
  | nil => intro h; rfl
  | cons a t ih =>
    cases t with
    | nil => intro h; rfl
    | cons b r =>
      intro h
      simp only [containsTerm] at h
      split at h
      · cases h
      · rename_i hpair
        simp only [splitTerm, if_neg hpair, ih h]

/-- `splitTerm` succeeds on buffers that contain the terminator. -/
theorem noTerm_of_splitTerm_none : ∀ l : List Nat,
    splitTerm l = none → containsTerm l = false := by
  intro l
  induction l with
  | nil => intro h; rfl
  | cons a t ih =>
    cases t with
    | nil => intro h; rfl
    | cons b r =>
      intro h
      simp only [splitTerm] at h
      split at h
      · cases h
      · rename_i hpair
        simp only [containsTerm, if_neg hpair]
        apply ih
        cases hsp : splitTerm (b :: r) with
        | none => rfl
        | some pr =>
          obtain ⟨pre, post⟩ := pr
          rw [hsp] at h
          cases h

/-- A cons with a non-`0x1C` head cannot start a terminator. -/
theorem containsTerm_cons_of_ne (a : Nat) (l : List Nat) (ha : a ≠ 28) :
    containsTerm (a :: l) = containsTerm l := by
  cases l with
  | nil => rfl
  | cons b r =>
    simp only [containsTerm]
    rw [if_neg (fun hp => ha hp.1)]

/-- Appending a single non-`0x0D` byte cannot create a terminator. -/
theorem containsTerm_snoc_of_ne (b : Nat) (hb : b ≠ 13) : ∀ l : List Nat,
    containsTerm (l ++ [b]) = containsTerm l := by
  intro l
  induction l with
  | nil => rfl
  | cons a t ih =>
    cases t with
    | nil =>
      simp only [List.cons_append, List.nil_append, containsTerm]
      rw [if_neg (fun hp => hb hp.2)]
    | cons c r =>
      simp only [List.cons_append, containsTerm, List.append_eq] at ih ⊢
      rw [ih]

/-- A terminator-free buffer stays terminator-free under `take`. -/
theorem containsTerm_take : ∀ (l : List Nat) (n : Nat),
    containsTerm l = false → containsTerm (l.take n) = false := by
  intro l
  induction l with
  | nil => intro n h; simp [List.take_nil, containsTerm]
  | cons a t ih =>
    intro n h
    cases t with
    | nil =>
      cases n with
      | zero => rfl
      | succ k => simpa using h
    | cons b r =>
      simp only [containsTerm] at h
      split at h
      · cases h
      · rename_i hpair
        cases n with
        | zero => rfl
        | succ k =>
          cases k with
          | zero => rfl
          | succ k2 =>
            simp only [List.take_succ_cons, containsTerm, if_neg hpair]
            have := ih (k2 + 1) h
            simpa using this

/-- Any buffer of the shape `Y ++ 0x1C 0x0D Z` contains a terminator. -/
theorem containsTerm_append_term (Z : List Nat) : ∀ Y : List Nat,
    containsTerm (Y ++ 28 :: 13 :: Z) = true := by
  intro Y
  induction Y with
  | nil => simp [containsTerm]
  | cons a t ih =>
    cases t with
    | nil =>
      simp only [List.cons_append, List.nil_append, containsTerm]
      split
      · rfl
      · simp [containsTerm]
    | cons b r =>
      simp only [List.cons_append, containsTerm] at ih ⊢
      split
      · rfl
      · exact ih

/-- On a buffer that is a terminator-free prefix followed by a terminator,
`splitTerm` finds exactly that first terminator. -/
theorem splitTerm_of_noTerm : ∀ pre : List Nat, containsTerm pre = false →
    ∀ post : List Nat, splitTerm (pre ++ 28 :: 13 :: post) = some (pre, post) := by
  intro pre
  induction pre with
  | nil => intro h post; simp [splitTerm]
  | cons a t ih =>
    intro h post
    cases t with
    | nil =>
      have h28 : ¬(a = 28 ∧ (28 : Nat) = 13) := fun hp => by cases hp.2
      simp [splitTerm, h28]
    | cons b r =>
      simp only [containsTerm] at h
      split at h
      · cases h
      · rename_i hpair
        have := ih h post
        simp only [List.cons_append] at this ⊢
        simp only [splitTerm, if_neg hpair, this]

/-- A terminator-free buffer passes through an extraction pass unchanged,
with no frame produced. -/
theorem extractFrames_noTerm (buf : List Nat) (h : containsTerm buf = false) :
    extractFrames buf = ([], buf) :=
  extractFrames_of_none buf (splitTerm_none_of_noTerm buf h)

/-- Extracting from a complete frame followed by anything yields the
frame's payload and continues on the remainder. -/
theorem extractFrames_frame_cons (M Z : List Nat) (hM : containsTerm M = false) :
    extractFrames (mllpFrame M ++ Z) = (M :: (extractFrames Z).1, (extractFrames Z).2) := by
  have h1 : mllpFrame M ++ Z = (11 :: M) ++ 28 :: 13 :: Z := by
    simp [mllpFrame]
  have h2 : containsTerm (11 :: M) = false := by
    rw [containsTerm_cons_of_ne 11 M (by decide)]
    exact hM
  rw [h1, extractFrames_of_some ((11 :: M) ++ 28 :: 13 :: Z) (11 :: M) Z
    (splitTerm_of_noTerm (11 :: M) h2 Z)]
  rfl

/-- Extracting from exactly one complete frame yields its payload and an
empty buffer. -/
theorem extractFrames_single (M : List Nat) (hM : containsTerm M = false) :
    extractFrames (mllpFrame M) = ([M], []) := by
  have h := extractFrames_frame_cons M [] hM
  rw [List.append_nil] at h
  rw [h]
  rfl

/-- Extracting from two back-to-back complete frames yields both payloads
in order and an empty buffer. -/
theorem extractFrames_two (M1 M2 : List Nat) (h1 : containsTerm M1 = false)
    (h2 : containsTerm M2 = false) :
    extractFrames (mllpFrame M1 ++ mllpFrame M2) = ([M1, M2], []) := by
  rw [extractFrames_frame_cons M1 (mllpFrame M2) h1, extractFrames_single M2 h2]

/-- In a single complete frame `mllpFrame M` (with terminator-free payload
`M`), the only terminator occurrence is the final one: any decomposition
`Y ++ Z = mllpFrame M` where `Y` already contains a terminator forces
`Y` to be the whole frame. -/
theorem eq_frame_of_containsTerm (M : List Nat) (hM : containsTerm M = false)
    (Y Z : List Nat) (hYZ : Y ++ Z = mllpFrame M) (hY : containsTerm Y = true) :
    Y = mllpFrame M ∧ Z = [] := by
  have hG : mllpFrame M = (11 :: (M ++ [28])) ++ [13] := by
    simp [mllpFrame]
  have hGnoterm : containsTerm (11 :: (M ++ [28])) = false := by
    rw [containsTerm_cons_of_ne 11 (M ++ [28]) (by decide),
      containsTerm_snoc_of_ne 28 (by decide) M]
    exact hM
  by_cases hz : Z = []
  · constructor
    · rw [← hYZ, hz, List.append_nil]
    · exact hz
  · exfalso
    have hlen : Y.length + Z.length = (mllpFrame M).length := by
      rw [← hYZ]; simp
    have hzlen : 1 ≤ Z.length := by
      cases Z with
      | nil => exact absurd rfl hz
      | cons z zs => simp
    have hYle : Y.length ≤ (11 :: (M ++ [28])).length := by
      have hm3 : (mllpFrame M).length = M.length + 3 := by simp [mllpFrame]
      have hm2 : (11 :: (M ++ [28])).length = M.length + 2 := by simp
      omega
    have hYtake : Y = (11 :: (M ++ [28])).take Y.length := by
      have h1 : Y = (Y ++ Z).take Y.length := (List.take_left Y Z).symm
      rw [hYZ, hG, List.take_append_of_le_length hYle] at h1
      exact h1
    have hfalse : containsTerm Y = false := by
      rw [hYtake]
      exact containsTerm_take (11 :: (M ++ [28])) Y.length hGnoterm
    rw [hY] at hfalse
    cases hfalse

/-- Feeding chunks that carry no bytes leaves a terminator-free buffer and
the frame output untouched. -/
theorem runFramer_empty_chunks : ∀ (cs : List (List Nat)) (buf : List Nat),
    cs.flatten = [] → containsTerm buf = false → runFramer buf cs = ([], buf) := by
  intro cs
  induction cs with
  | nil => intro buf h1 h2; rfl
  | cons c cs ih =>
    intro buf h1 h2
    simp only [List.flatten_cons, List.append_eq_nil] at h1
    obtain ⟨hc, hcs⟩ := h1
    subst hc
    simp only [runFramer, List.append_nil, extractFrames_noTerm buf h2]
    simp [ih buf hcs h2]

/-- Main single-frame lemma: if the terminator-free buffer plus the
concatenation of the remaining chunks is exactly one MLLP frame with
terminator-free payload `M`, then running the framing loop yields exactly
the one payload `M` and an empty final buffer. -/
theorem runFramer_one_frame : ∀ (chunks : List (List Nat)) (buf M : List Nat),
    containsTerm M = false → containsTerm buf = false →
    buf ++ chunks.flatten = mllpFrame M →
    runFramer buf chunks = ([M], []) := by
  intro chunks
  induction chunks with
  | nil =>
    intro buf M hM hbuf hcat
    exfalso
    rw [List.flatten_nil, List.append_nil] at hcat
    subst hcat
    rw [show mllpFrame M = (11 :: M) ++ 28 :: 13 :: ([] : List Nat) from by simp [mllpFrame],
      containsTerm_append_term [] (11 :: M)] at hbuf
    cases hbuf
  | cons c cs ih =>
    intro buf M hM hbuf hcat
    have hcat2 : (buf ++ c) ++ cs.flatten = mllpFrame M := by
      rw [← hcat, List.flatten_cons, List.append_assoc]
    cases hct : containsTerm (buf ++ c) with
    | false =>
      simp only [runFramer, extractFrames_noTerm (buf ++ c) hct]
      simp [ih (buf ++ c) M hM hct hcat2]
    | true =>
      obtain ⟨hY, hZ⟩ := eq_frame_of_containsTerm M hM (buf ++ c) cs.flatten hcat2 hct
      simp only [runFramer, hY, extractFrames_single M hM]
      simp [runFramer_empty_chunks cs [] hZ rfl]

/-- Running the framing loop over concatenated chunk lists composes. -/
theorem runFramer_append : ∀ (xs ys : List (List Nat)) (buf : List Nat),
    runFramer buf (xs ++ ys) =
      ((runFramer buf xs).1 ++ (runFramer (runFramer buf xs).2 ys).1,
       (runFramer (runFramer buf xs).2 ys).2) := by
  intro xs
  induction xs with
  | nil => intro ys buf; simp [runFramer]
  | cons x xs ih =>
    intro ys buf
    simp only [List.cons_append, List.append_eq, runFramer, ih, List.append_assoc]

/-- Buffer invariant of one extraction pass: the remaining buffer is
terminator-free (no completed frame left behind) and is retained verbatim
as a suffix of the original buffer (the consumed bytes, terminators
included, are removed from the front). -/
theorem extractFrames_invariant : ∀ buf : List Nat,
    containsTerm (extractFrames buf).2 = false ∧
      ∃ consumed, buf = consumed ++ (extractFrames buf).2 := by
  have key : ∀ (n : Nat) (buf : List Nat), buf.length ≤ n →
      containsTerm (extractFrames buf).2 = false ∧
        ∃ consumed, buf = consumed ++ (extractFrames buf).2 := by
    intro n
    induction n with
    | zero =>
      intro buf hlen
      have hb : buf = [] := List.eq_nil_of_length_eq_zero (Nat.le_zero.mp hlen)
      subst hb
      exact ⟨rfl, [], rfl⟩
    | succ k ih =>
      intro buf hlen
      cases hsp : splitTerm buf with
      | none =>
        rw [extractFrames_of_none buf hsp]
        exact ⟨noTerm_of_splitTerm_none buf hsp, [], rfl⟩
      | some pr =>
        obtain ⟨m, rest⟩ := pr
        rw [extractFrames_of_some buf m rest hsp]
        have hb := splitTerm_eq_append buf m rest hsp
        have hr : rest.length ≤ k := by
          rw [hb] at hlen
          simp only [List.length_append, List.length_cons] at hlen
          omega
        obtain ⟨h1, consumed, h2⟩ := ih rest hr
        refine ⟨h1, m ++ 28 :: 13 :: consumed, ?_⟩
        conv_lhs => rw [hb]
        conv_lhs => rw [h2]
        simp [List.append_assoc]
  intro buf
  exact key buf.length buf (Nat.le_refl _)

/-- C1, counterexample: for an inbound message whose `MSH` field 10
(control ID, split index 9) is `"Q123"`, the ACK built by
`create_ack_response` has `"BM_3"` as the second field of its `MSA`
segment, not `"Q123"` — the original control ID is not echoed back.
The `python-hl7main.py` variant likewise puts its own generated timestamp
there, not the inbound control ID. -/
theorem c1_counterexample :
    controlIdHL7 "MSH|^~\\&|A|B|C|D|20240101000000||ORU^R01|Q123|P|2.4" = some "Q123" ∧
    msaSecondField (create_ack_response
      (some "MSH|^~\\&|A|B|C|D|20240101000000||ORU^R01|Q123|P|2.4")) = some "BM_3" ∧
    (some "BM_3" : Option String) ≠ some "Q123" ∧
    msaSecondField (create_ack_response_main "20240101000000") = some "20240101000000" :=
  ⟨by decide, by decide, by decide, by decide⟩

/-- C1, amended: the second field of the ACK's `MSA` segment is always the
server's hardcoded control ID `"BM_3"` (src/test2.py lines 289, 294),
whatever the inbound message; the inbound control ID is never echoed. -/
theorem c1_ack_msa_field_is_constant (m : Option String) :
    msaSecondField (create_ack_response m) = some "BM_3" := by
  have h : create_ack_response m = create_ack_response none := rfl
  rw [h]
  decide

/-- C2: for every payload `M` free of embedded `0x1C 0x0D` and every way
of splitting the byte string `0x0B ++ M ++ 0x1C 0x0D` into chunks, feeding
the chunks in order to one connection's framing loop produces exactly one
extracted frame, whose payload is `M` (leading `0x0B` and terminator
stripped), and leaves the buffer empty. -/
theorem c2_framing_round_trip (M : List Nat) (chunks : List (List Nat))
    (hM : containsTerm M = false) (hcat : chunks.flatten = mllpFrame M) :
    runFramer [] chunks = ([M], []) :=
  runFramer_one_frame chunks [] M hM rfl (by rw [List.nil_append, hcat])

/-- Witness for C2 at a concrete three-way split of the frame around
payload `[72, 73]`, cutting the terminator in half. -/
theorem c2_framing_round_trip_witness :
    runFramer [] [[11, 72], [73, 28], [13]] = ([[72, 73]], []) :=
  c2_framing_round_trip [72, 73] [[11, 72], [73, 28], [13]] (by decide) (by decide)

/-- C3, counterexample: a frame whose first segment is `OBR` (not `MSH`)
is rejected by the parser contract written in the spec, yet
`process_complete_hl7_message` does not fail and does process its
contents: the OBR fields are extracted into the result. -/
theorem c3_counterexample :
    hl7ParseSpec "OBR|1|SP1|SPEC1|PATIENT1" = none ∧
    (process_complete_hl7_message "OBR|1|SP1|SPEC1|PATIENT1").1.patient_info =
      some "PATIENT1" ∧
    process_complete_hl7_message "OBR|1|SP1|SPEC1|PATIENT1" ≠ (initPatientData, []) :=
  ⟨by decide, by decide, by decide⟩

/-- C3, amended: the code has no `MalformedMessage` rejection at all.
Processing is a total function; a leading `MSH` header contributes nothing
that gates the rest (prepending a bare `MSH` segment leaves the result
unchanged, so inputs accepted and rejected by the spec's parser contract
are processed alike), and the empty text yields the empty result rather
than an error. -/
theorem c3_processing_never_rejects :
    (∀ segments : List String,
      processSegments ("MSH" :: segments) = processSegments segments) ∧
    process_complete_hl7_message "" = (initPatientData, []) := by
  constructor
  · intro segments
    show List.foldl processSegment (processSegment (initPatientData, []) "MSH") segments =
      List.foldl processSegment (initPatientData, []) segments
    rw [show processSegment (initPatientData, []) "MSH" = (initPatientData, []) from by decide]
  · decide

/-- C4: buffer invariant of the framer.  Part one: after any extraction
pass the remaining buffer is terminator-free (every completed frame,
terminator included, has been removed) and is a verbatim suffix of the
original buffer.  Part two: a chunk that ends mid-frame yields zero frames
and is retained, and a subsequent chunk completing the frame yields
exactly the one payload of the full concatenation. -/
theorem c4_buffer_invariant :
    (∀ buf : List Nat, containsTerm (extractFrames buf).2 = false ∧
      ∃ consumed, buf = consumed ++ (extractFrames buf).2) ∧
    (∀ c1 c2 M : List Nat, containsTerm c1 = false → containsTerm M = false →
      c1 ++ c2 = mllpFrame M →
      runFramer [] [c1] = ([], c1) ∧ runFramer [] [c1, c2] = ([M], [])) := by
  constructor
  · exact extractFrames_invariant
  · intro c1 c2 M h1 hM hcat
    constructor
    · simp [runFramer, extractFrames_noTerm c1 h1]
    · apply runFramer_one_frame [c1, c2] [] M hM rfl
      simp [hcat]

/-- Witness for C4 at a chunk `[11, 65]` that ends mid-frame, completed by
a second chunk `[66, 28, 13]`. -/
theorem c4_buffer_invariant_witness :
    runFramer [] [[11, 65]] = ([], [11, 65]) ∧
    runFramer [] [[11, 65], [66, 28, 13]] = ([[65, 66]], []) :=
  c4_buffer_invariant.2 [11, 65] [66, 28, 13] [65, 66] (by decide) (by decide) (by decide)

/-- Extracting from any number of complete back-to-back frames yields all
their payloads, in left-to-right order, and an empty buffer. -/
theorem extractFrames_flatten_frames : ∀ Ms : List (List Nat),
    (∀ M ∈ Ms, containsTerm M = false) →
    extractFrames (Ms.map mllpFrame).flatten = (Ms, []) := by
  intro Ms
  induction Ms with
  | nil => intro h; rfl
  | cons M Ms ih =>
    intro h
    rw [List.map_cons, List.flatten_cons,
      extractFrames_frame_cons M (Ms.map mllpFrame).flatten (h M (by simp)),
      ih (fun M2 hm => h M2 (by simp [hm]))]

/-- C5: a single fed chunk holding any number of complete back-to-back
frames (in particular two or more) yields all their payloads, in
left-to-right order, in one extraction pass, each as a distinct frame. -/
theorem c5_frames_in_one_chunk (Ms : List (List Nat))
    (h : ∀ M ∈ Ms, containsTerm M = false) :
    runFramer [] [(Ms.map mllpFrame).flatten] = (Ms, []) := by
  simp [runFramer, extractFrames_flatten_frames Ms h]

/-- Witness for C5 at the three back-to-back frames with payloads `[72]`,
`[73]` and `[74]` in one chunk. -/
theorem c5_frames_in_one_chunk_witness :
    runFramer [] [([[72], [73], [74]].map mllpFrame).flatten] = ([[72], [73], [74]], []) :=
  c5_frames_in_one_chunk [[72], [73], [74]] (by decide)

/-- C6, counterexample: `"XXX"` is a frame text the spec's parser contract
rejects (no `MSH` first segment), yet the ACK the handler sends for it
(src/test2.py lines 328-334 always call `create_ack_response` and send the
result) carries acknowledgment code `"AA"` — not a non-`AA` code. -/
theorem c6_counterexample :
    hl7ParseSpec "XXX" = none ∧
    msaAckCode (create_ack_response (some "XXX")) = some "AA" :=
  ⟨by decide, by decide⟩

/-- C6, amended: a parse-rejectable frame does not terminate the
connection and is still acknowledged, but always with code `AA` (never a
non-`AA` code): every ACK the handler sends carries `MSA|AA|...`, and the
framing loop goes on to process subsequent frames of the connection. -/
theorem c6_always_AA_and_continues :
    (∀ t : String, msaAckCode (create_ack_response (some t)) = some "AA") ∧
    (∀ M1 M2 : List Nat, containsTerm M1 = false → containsTerm M2 = false →
      runFramer [] [mllpFrame M1, mllpFrame M2] = ([M1, M2], [])) := by
  constructor
  · intro t
    have h : create_ack_response (some t) = create_ack_response none := rfl
    rw [h]
    decide
  · intro M1 M2 h1 h2
    simp [runFramer, extractFrames_single M1 h1, extractFrames_single M2 h2]

/-- Witness for C6: the ACK for the parse-rejectable text `"XXX"` has code
`AA`, and two frames fed after one another are both processed. -/
theorem c6_always_AA_and_continues_witness :
    msaAckCode (create_ack_response (some "XXX")) = some "AA" ∧
    runFramer [] [mllpFrame [88], mllpFrame [89]] = ([[88], [89]], []) :=
  ⟨c6_always_AA_and_continues.1 "XXX",
   c6_always_AA_and_continues.2 [88] [89] (by decide) (by decide)⟩

/-- C7, counterexample: two ACKs emitted for two distinct inbound messages
carry the identical control ID `"BM_3"` — outgoing control IDs are not
unique per ACK.  The `python-hl7main.py` variant uses the one-second
resolution `strftime` result as control ID, so two ACKs built within the
same second also collide. -/
theorem c7_counterexample :
    ("A" : String) ≠ "B" ∧
    controlIdHL7 (create_ack_response (some "A")) = some "BM_3" ∧
    controlIdHL7 (create_ack_response (some "B")) = some "BM_3" ∧
    controlIdHL7 (create_ack_response_main "20240101000000") = some "20240101000000" :=
  ⟨by decide, by decide, by decide, by decide⟩

/-- C7, amended: every ACK built by `create_ack_response` carries the same
hardcoded control ID `"BM_3"` (src/test2.py line 289); control IDs are
constant, not unique, across the process lifetime. -/
theorem c7_ack_control_id_is_constant (m : Option String) :
    controlIdHL7 (create_ack_response m) = some "BM_3" := by
  have h : create_ack_response m = create_ack_response none := rfl
  rw [h]
  decide

/-- C8, counterexample: a connection that delivers only the partial frame
`[0x0B, 88]` and then closes leaves a non-empty leftover buffer, yet the
handler's observable output (the processed-frame list — the only thing the
close path at src/test2.py lines 305-306, 346-351 produces) is identical
to that of a connection that delivered nothing: the leftover is silently
dropped, with no malformed-final-frame error for callers to observe. -/
theorem c8_counterexample :
    (runFramer [] [[11, 88]]).1 = (runFramer [] ([] : List (List Nat))).1 ∧
    (runFramer [] [[11, 88]]).2 = [11, 88] ∧ ([11, 88] : List Nat) ≠ [] :=
  ⟨by decide, by decide, by decide⟩

/-- C8, amended: a trailing chunk that completes no frame is silently
discarded at connection close: it changes no processed-frame output and
raises no error; the bytes merely sit in the dropped buffer. -/
theorem c8_close_drops_leftover (chunks : List (List Nat)) (trailing : List Nat)
    (h : containsTerm ((runFramer [] chunks).2 ++ trailing) = false) :
    (runFramer [] (chunks ++ [trailing])).1 = (runFramer [] chunks).1 ∧
    (runFramer [] (chunks ++ [trailing])).2 = (runFramer [] chunks).2 ++ trailing := by
  rw [runFramer_append chunks [trailing] []]
  constructor
  · simp [runFramer, extractFrames_noTerm _ h]
  · simp [runFramer, extractFrames_noTerm _ h]

/-- Witness for C8: one complete frame followed by the partial `[11, 88]`. -/
theorem c8_close_drops_leftover_witness :
    (runFramer [] ([mllpFrame [65]] ++ [[11, 88]])).1 = (runFramer [] [mllpFrame [65]]).1 ∧
    (runFramer [] ([mllpFrame [65]] ++ [[11, 88]])).2 =
      (runFramer [] [mllpFrame [65]]).2 ++ [11, 88] :=
  c8_close_drops_leftover [mllpFrame [65]] [11, 88] (by decide)

/-- C9: on the claim's `MSH` line the code stores `"P"` — split index 10,
which is HL7 field MSH-11, the processing ID — as `message_control_id`,
while the control ID MSH-10 of that line is `"CTRL1"` (split index 9,
where the server's own outgoing ACK also places its control ID). -/
theorem c9_control_id_extraction_off_by_one :
    (process_complete_hl7_message
      "MSH|^~\\&|A|B|C|D|20240101000000||ORU^R01|CTRL1|P|2.4").1.message_control_id =
      some "P" ∧
    controlIdHL7 "MSH|^~\\&|A|B|C|D|20240101000000||ORU^R01|CTRL1|P|2.4" = some "CTRL1" ∧
    controlIdHL7 (create_ack_response none) = some "BM_3" :=
  ⟨by decide, by decide, by decide⟩

/-- C10: `create_ack_response` of src/test2.py is a constant function —
any two invocations return byte-for-byte identical output, the fixed frame
with hardcoded timestamp `20250906121328` and control ID `BM_3`. -/
theorem c10_create_ack_response_is_constant :
    (∀ m1 m2 : Option String, create_ack_response m1 = create_ack_response m2) ∧
    ∀ m : Option String, create_ack_response m =
      "\x0bMSH|^~\\&|103868||BM850HL7MW||20250906121328||ACK|BM_3|P|2.7\rMSA|AA|BM_3\r\x1c\x0d" := by
  constructor
  · intro m1 m2
    rfl
  · intro m
    rfl
